import Mathlib

/-!
Verification of the taste-vector fusion and nearest-neighbor retrieval core of
the COMS6998FinalProject movie recommender, together with two functions of the
demo front-end (`calculateSimilarity` in `Demo/movie-rec-demo/src/api/openai.ts`
and `resolveMovieIds` in the demo recommendation generator).

The backend component (`RecommenderBackend/recommender.py` and friends) is
present in the repository only through its README; the corresponding
definitions below are therefore modelled from the specification (each such
definition carries a doc comment starting with `Modelled from the spec:`).
Real-valued (floating point) arithmetic of the source is idealized as exact
real arithmetic over `ℝ`; vectors are lists of reals, matching the Python
list/array representation.
-/

namespace MovieRec

/-! ### Vector math utilities (spec section 4.1) -/

/-- Modelled from the spec: the Euclidean norm of a vector
(`RecommenderBackend` vector math is not under `src/`). -/
noncomputable def norm (v : List ℝ) : ℝ :=
  Real.sqrt ((v.map fun x => x * x).sum)

/-- Modelled from the spec: `normalize(v)` divides each component by the
Euclidean norm of `v` (spec section 4.1). -/
noncomputable def normalize (v : List ℝ) : List ℝ :=
  v.map fun x => x / norm v

/-- Dot product of two vectors (componentwise product, then sum). -/
def dotp (a b : List ℝ) : ℝ :=
  (List.zipWith (fun x y => x * y) a b).sum

/-- Elementwise sum of two vectors. -/
def vadd (a b : List ℝ) : List ℝ :=
  List.zipWith (fun x y => x + y) a b

/-- Scalar multiple of a vector. -/
def smul (c : ℝ) (v : List ℝ) : List ℝ :=
  v.map fun x => c * x

/-- Error taxonomy of the core (spec section 7). -/
inductive RecError where
  | emptyInput
  | embeddingFailure
  | dimensionMismatch
  | zeroVector
  | emptyCatalog
  | invalidArgument
  deriving DecidableEq, Repr

/-- Modelled from the spec: `cosineSimilarity(a, b)` is the dot product of the
two (pre-normalized) vectors, failing with `DimensionMismatchError` on length
mismatch (spec section 4.1). -/
def cosineSimilarity (a b : List ℝ) : Except RecError ℝ :=
  if a.length = b.length then .ok (dotp a b) else .error .dimensionMismatch

/-- Modelled from the spec: `fuse(old, new, alpha)` returns
`alpha*old + (1-alpha)*new` elementwise and re-normalizes the result to unit
length (spec section 4.1). -/
noncomputable def fuse (old new : List ℝ) (alpha : ℝ) : List ℝ :=
  normalize (List.zipWith (fun o n => alpha * o + (1 - alpha) * n) old new)

/-! ### User taste state store (spec section 4.3) -/

/-- Modelled from the spec: the per-user taste state, a vector (absent until
the first embedding arrives) and a turn count (spec section 3). -/
structure TasteState where
  vector : Option (List ℝ)
  turn_count : ℕ

/-- Modelled from the spec: the taste state store maps a user id to its state;
`none` means the user id has never been seen. -/
def Store := String → Option TasteState

/-- Modelled from the spec: `get(user_id)` returns the existing state or a
fresh `{vector: absent, turn_count: 0}` if unseen (spec section 4.3). -/
def Store.get (st : Store) (uid : String) : TasteState :=
  (st uid).getD ⟨none, 0⟩

/-- Modelled from the spec: the vector stored by `update`: on the first turn
(no prior vector) the normalized input directly, otherwise the fusion of the
old vector with the normalized input.  Incoming vectors are normalized before
storage per the invariant of spec section 3 ("every vector ... is
L2-normalized (unit norm) before storage/comparison"). -/
noncomputable def fusedVector (alpha : ℝ) (s : TasteState) (v : List ℝ) : List ℝ :=
  match s.vector with
  | none => normalize v
  | some old => fuse old (normalize v) alpha

/-- Modelled from the spec: `update(user_id, new_vector)` stores the fused
vector and increments `turn_count` (spec section 4.3); returns the new store
and the new `TasteState`. -/
noncomputable def Store.update (alpha : ℝ) (st : Store) (uid : String) (v : List ℝ) :
    Store × TasteState :=
  let s := st.get uid
  let s' : TasteState := ⟨some (fusedVector alpha s v), s.turn_count + 1⟩
  (fun u => if u = uid then some s' else st u, s')

/-! ### Helper lemmas about the vector operations -/

lemma zipWith_comb_eq_vadd_smul (alpha : ℝ) :
    ∀ (a b : List ℝ),
      List.zipWith (fun o n => alpha * o + (1 - alpha) * n) a b =
        vadd (smul alpha a) (smul (1 - alpha) b)
  | [], _ => by simp [vadd, smul]
  | _ :: _, [] => by simp [vadd, smul]
  | x :: a, y :: b =>
    congrArg (List.cons (alpha * x + (1 - alpha) * y))
      (zipWith_comb_eq_vadd_smul alpha a b)

lemma zipWith_comb_self (alpha : ℝ) :
    ∀ a : List ℝ, List.zipWith (fun o n => alpha * o + (1 - alpha) * n) a a = a
  | [] => rfl
  | x :: a => by
    have hx : alpha * x + (1 - alpha) * x = x := by ring
    simpa [hx] using zipWith_comb_self alpha a

/-! ### Claim C1 -/

/-- C1: for every user id unseen by the taste state store and all input
vectors `v1`, `v2`, after `update(user_id, v1)` followed by
`update(user_id, v2)` the stored taste vector equals
`normalize(alpha*normalize(v1) + (1-alpha)*normalize(v2))` — fuse computes the
elementwise convex combination and then re-normalizes — and `turn_count`
equals `2`. -/
theorem update_twice_fuses_normalized (alpha : ℝ) (st : Store) (uid : String)
    (v1 v2 : List ℝ) (h : st uid = none) :
    (((Store.update alpha (Store.update alpha st uid v1).1 uid v2).1.get uid).vector =
        some (normalize (vadd (smul alpha (normalize v1))
          (smul (1 - alpha) (normalize v2))))) ∧
      ((Store.update alpha (Store.update alpha st uid v1).1 uid v2).1.get uid).turn_count = 2 := by
  constructor
  · simp [Store.update, Store.get, h, fusedVector, fuse,
      zipWith_comb_eq_vadd_smul]
  · simp [Store.update, Store.get, h, fusedVector]

/-- Closed witness for C1 at a concrete unseen user and concrete vectors. -/
theorem update_twice_fuses_normalized_witness :
    ((fun _ => none : Store) "emily" = none) ∧
      ((((Store.update (7/10) (Store.update (7/10) (fun _ => none : Store) "emily" [1, 0]).1
            "emily" [0, 1]).1.get "emily").vector =
          some (normalize (vadd (smul (7/10) (normalize [1, 0]))
            (smul (1 - 7/10) (normalize [0, 1]))))) ∧
        (((Store.update (7/10) (Store.update (7/10) (fun _ => none : Store) "emily" [1, 0]).1
            "emily" [0, 1]).1.get "emily").turn_count = 2)) :=
  ⟨rfl, update_twice_fuses_normalized (7/10) (fun _ => none) "emily" [1, 0] [0, 1] rfl⟩

/-! ### Claim C3 -/

/-- C3: the first `update(user_id, v)` on an unseen user id stores
`normalize(v)` directly (no fusion) and sets `turn_count` to `1`, and the
result does not depend on the configured alpha. -/
theorem update_first_turn (alpha : ℝ) (st : Store) (uid : String) (v : List ℝ)
    (h : st uid = none) :
    ((Store.update alpha st uid v).2.vector = some (normalize v)) ∧
      ((Store.update alpha st uid v).2.turn_count = 1) ∧
      (∀ alpha' : ℝ, Store.update alpha st uid v = Store.update alpha' st uid v) := by
  refine ⟨?_, ?_, ?_⟩
  · simp [Store.update, Store.get, h, fusedVector]
  · simp [Store.update, Store.get, h]
  · intro alpha'
    simp [Store.update, Store.get, h, fusedVector]

/-- Closed witness for C3 at a concrete unseen user and a concrete vector. -/
theorem update_first_turn_witness :
    ((fun _ => none : Store) "u" = none) ∧
      (((Store.update (1/2) (fun _ => none : Store) "u" [3, 4]).2.vector =
          some (normalize [3, 4])) ∧
        ((Store.update (1/2) (fun _ => none : Store) "u" [3, 4]).2.turn_count = 1) ∧
        (∀ alpha' : ℝ, Store.update (1/2) (fun _ => none : Store) "u" [3, 4] =
            Store.update alpha' (fun _ => none : Store) "u" [3, 4])) :=
  ⟨rfl, update_first_turn (1/2) (fun _ => none) "u" [3, 4] rfl⟩

/-! ### Claim C8 -/

/-- C8: for every vector `a` and every alpha in `[0,1]`, `fuse(a, a, alpha)`
equals `a` normalized, independently of alpha. -/
theorem fuse_self_eq_normalize (a : List ℝ) (alpha : ℝ)
    (h0 : 0 ≤ alpha) (h1 : alpha ≤ 1) :
    fuse a a alpha = normalize a := by
  unfold fuse
  rw [zipWith_comb_self]

/-- Closed witness for C8 at a concrete vector and alpha. -/
theorem fuse_self_eq_normalize_witness :
    ((0 : ℝ) ≤ 7/10) ∧ ((7/10 : ℝ) ≤ 1) ∧
      fuse [1, 2, 2] [1, 2, 2] (7/10) = normalize [1, 2, 2] :=
  ⟨by norm_num, by norm_num,
    fuse_self_eq_normalize [1, 2, 2] (7/10) (by norm_num) (by norm_num)⟩

/-! ### Movie catalog index (spec section 4.2) -/

/-- Modelled from the spec: a movie record, an identifier plus its embedding
vector (display metadata is opaque to the core and omitted). -/
structure MovieRecord where
  movie_id : String
  emb : List ℝ

/-- Modelled from the spec: the catalog, a configured dimension `D` and the
list of records in insertion order. -/
structure Catalog where
  dim : ℕ
  records : List MovieRecord

/-- Ordering used by the top-K query: record `a` before record `b` when `a`'s
similarity is at least `b`'s (descending similarity). -/
def simRel : (MovieRecord × ℝ) → (MovieRecord × ℝ) → Prop := fun a b => b.2 ≤ a.2

noncomputable instance : DecidableRel simRel := fun a b => Real.decidableLE b.2 a.2

instance : IsTotal (MovieRecord × ℝ) simRel := ⟨fun a b => le_total b.2 a.2⟩

instance : IsTrans (MovieRecord × ℝ) simRel := ⟨fun _ _ _ hab hbc => le_trans hbc hab⟩

/-- Each record paired with its similarity to the query vector (cosine
similarity is the plain dot product since stored vectors are unit length,
spec sections 4.1 and 4.2). -/
def scoredRecords (cat : Catalog) (v : List ℝ) : List (MovieRecord × ℝ) :=
  cat.records.map fun r => (r, dotp v r.emb)

/-- Modelled from the spec: the ranked candidate list — every record scored,
sorted by similarity descending with the stable insertion sort, truncated to
the top `k`. -/
noncomputable def queryList (cat : Catalog) (v : List ℝ) (k : ℤ) :
    List (MovieRecord × ℝ) :=
  ((scoredRecords cat v).insertionSort simRel).take k.toNat

/-- Modelled from the spec: `query(vector, k)` validates `k`, the vector
dimension and catalog non-emptiness, then returns the ranked top-`k` list
(spec section 4.2; argument validation precedes the catalog-state check, per
the propagation policy of spec section 7 that groups `InvalidArgumentError`
with input validation). -/
noncomputable def query (cat : Catalog) (v : List ℝ) (k : ℤ) :
    Except RecError (List (MovieRecord × ℝ)) :=
  if k ≤ 0 then .error .invalidArgument
  else if v.length ≠ cat.dim then .error .dimensionMismatch
  else if cat.records.isEmpty then .error .emptyCatalog
  else .ok (queryList cat v k)

/-- Lexicographic ordering on index-tagged scored records: higher similarity
first, ties resolved by lower (earlier) catalog position.  It is total,
transitive and antisymmetric on lists with distinct tags, so a list sorted by
it is the unique stable descending ordering. -/
def lexRel : (ℕ × MovieRecord × ℝ) → (ℕ × MovieRecord × ℝ) → Prop :=
  fun a b => b.2.2 < a.2.2 ∨ (a.2.2 = b.2.2 ∧ a.1 ≤ b.1)

noncomputable instance : DecidableRel lexRel := fun a b => by
  unfold lexRel; infer_instance

/-! ### Stability of the sort used by the query -/

lemma orderedInsert_map_snd (x : ℕ × MovieRecord × ℝ) :
    ∀ M : List (ℕ × MovieRecord × ℝ), (∀ y ∈ M, x.1 ≤ y.1) →
      List.orderedInsert simRel x.2 (M.map Prod.snd) =
        (List.orderedInsert lexRel x M).map Prod.snd
  | [], _ => rfl
  | y :: M, h => by
    by_cases hxy : simRel x.2 y.2
    · have hx : lexRel x y := by
        rcases lt_or_eq_of_le hxy with hlt | heq
        · exact Or.inl hlt
        · exact Or.inr ⟨heq.symm, h y (List.mem_cons_self y M)⟩
      simp [List.orderedInsert, hxy, hx]
    · have hx : ¬ lexRel x y := by
        intro hcon
        rcases hcon with hlt | ⟨heq, _⟩
        · exact hxy (le_of_lt hlt)
        · exact hxy (le_of_eq heq.symm)
      have IH := orderedInsert_map_snd x M (fun y hy => h y (List.mem_cons_of_mem _ hy))
      simp [List.orderedInsert, hxy, hx, IH]

lemma insertionSort_map_snd :
    ∀ L : List (ℕ × MovieRecord × ℝ), L.Pairwise (fun a b => a.1 ≤ b.1) →
      List.insertionSort simRel (L.map Prod.snd) =
        (List.insertionSort lexRel L).map Prod.snd
  | [], _ => rfl
  | x :: L, h => by
    have hhead : ∀ y ∈ L, x.1 ≤ y.1 := fun y hy => List.rel_of_pairwise_cons h hy
    have IH := insertionSort_map_snd L h.of_cons
    simp only [List.map_cons, List.insertionSort, IH]
    exact orderedInsert_map_snd x _
      (fun y hy => hhead y ((List.mem_insertionSort lexRel).mp hy))

lemma pairwise_fst_le_enumFrom (l : List (MovieRecord × ℝ)) :
    ∀ n : ℕ, (l.enumFrom n).Pairwise (fun a b => a.1 ≤ b.1) := by
  induction l with
  | nil => intro n; exact List.Pairwise.nil
  | cons x l ih =>
    intro n
    refine List.Pairwise.cons ?_ (ih (n + 1))
    intro y hy
    have : n + 1 ≤ y.1 := (List.mk_mem_enumFrom_iff_le_and_getElem?_sub.mp
      (show (y.1, y.2) ∈ l.enumFrom (n + 1) from hy)).1
    omega

lemma pairwise_fst_le_enum (l : List (MovieRecord × ℝ)) :
    l.enum.Pairwise (fun a b => a.1 ≤ b.1) :=
  pairwise_fst_le_enumFrom l 0

/-! ### Cauchy-Schwarz for the dot product -/

lemma dotp_nil_right (a : List ℝ) : dotp a [] = 0 := by
  cases a <;> simp [dotp]

lemma dotp_cons (x y : ℝ) (a b : List ℝ) :
    dotp (x :: a) (y :: b) = x * y + dotp a b := by
  simp [dotp]

lemma dotp_self_nonneg : ∀ a : List ℝ, 0 ≤ dotp a a
  | [] => le_refl 0
  | x :: a => by
    rw [dotp_cons]
    exact add_nonneg (mul_self_nonneg x) (dotp_self_nonneg a)

lemma dotp_sq_le : ∀ a b : List ℝ, dotp a b ^ 2 ≤ dotp a a * dotp b b
  | [], b => by simp [dotp]
  | x :: a, [] => by simp [dotp_nil_right, dotp_self_nonneg]
  | x :: a, y :: b => by
    have IH := dotp_sq_le a b
    have hp := dotp_self_nonneg a
    have hq := dotp_self_nonneg b
    rw [dotp_cons, dotp_cons, dotp_cons]
    rcases eq_or_lt_of_le hq with hq0 | hq0
    · have hs : dotp a b = 0 := by nlinarith [sq_nonneg (dotp a b)]
      rw [hs, ← hq0]
      nlinarith [mul_nonneg hp (mul_self_nonneg y)]
    · have key : dotp b b * ((x * x + dotp a a) * (y * y + dotp b b)
          - (x * y + dotp a b) ^ 2) =
          (x * dotp b b - y * dotp a b) ^ 2
            + (y * y + dotp b b) * (dotp a a * dotp b b - dotp a b ^ 2) := by
        ring
      have h2 : 0 ≤ (y * y + dotp b b) * (dotp a a * dotp b b - dotp a b ^ 2) :=
        mul_nonneg (add_nonneg (mul_self_nonneg y) hq) (by linarith)
      have h3 : 0 ≤ dotp b b * ((x * x + dotp a a) * (y * y + dotp b b)
          - (x * y + dotp a b) ^ 2) := by
        rw [key]; exact add_nonneg (sq_nonneg _) h2
      nlinarith [h3]

/-! ### Claim C2 -/

/-- C2: for every non-empty catalog, every query vector of the configured
dimension and every `k ≥ 1`, `query` scores every stored record by its
similarity and returns the `min(k, size)` records of highest similarity,
sorted by similarity descending with ties broken by catalog insertion order
(it equals the `take k` of the unique stable descending sort of the indexed
catalog), and when `k` exceeds the catalog size it returns all records,
sorted, without error. -/
theorem query_returns_top_k (cat : Catalog) (v : List ℝ) (k : ℤ)
    (hk : 1 ≤ k) (hd : v.length = cat.dim) (hne : cat.records ≠ []) :
    query cat v k = .ok (queryList cat v k) ∧
      (queryList cat v k).length = min k.toNat cat.records.length ∧
      List.Sorted simRel (queryList cat v k) ∧
      (∀ p ∈ queryList cat v k, p.1 ∈ cat.records ∧ p.2 = dotp v p.1.emb) ∧
      (∃ rest, (queryList cat v k ++ rest).Perm (scoredRecords cat v) ∧
        ∀ p ∈ queryList cat v k, ∀ q ∈ rest, q.2 ≤ p.2) ∧
      queryList cat v k =
        (((scoredRecords cat v).enum.insertionSort lexRel).map Prod.snd).take k.toNat ∧
      (cat.records.length ≤ k.toNat →
        queryList cat v k = (scoredRecords cat v).insertionSort simRel) := by
  have hk' : ¬ k ≤ 0 := by omega
  have hd' : ¬ v.length ≠ cat.dim := by simp [hd]
  have hne' : cat.records.isEmpty = false := by
    simpa [List.isEmpty_iff] using hne
  have hsorted := List.sorted_insertionSort simRel (scoredRecords cat v)
  have hlen : ((scoredRecords cat v).insertionSort simRel).length =
      cat.records.length := by
    rw [List.length_insertionSort]; simp [scoredRecords]
  refine ⟨?_, ?_, ?_, ?_, ?_, ?_, ?_⟩
  · simp [query, hk', hd', hne']
  · simp [queryList, List.length_take, hlen]
  · exact hsorted.sublist (List.take_sublist _ _)
  · intro p hp
    have hmem : p ∈ scoredRecords cat v :=
      ((scoredRecords cat v).perm_insertionSort simRel).subset
        (List.take_subset _ _ hp)
    rcases List.mem_map.mp hmem with ⟨r, hr, hrp⟩
    rw [← hrp]
    exact ⟨hr, rfl⟩
  · refine ⟨((scoredRecords cat v).insertionSort simRel).drop k.toNat, ?_, ?_⟩
    · rw [queryList, List.take_append_drop]
      exact (scoredRecords cat v).perm_insertionSort simRel
    · intro p hp q hq
      have := hsorted
      rw [List.Sorted, ← List.take_append_drop k.toNat
        ((scoredRecords cat v).insertionSort simRel), List.pairwise_append] at this
      exact this.2.2 p hp q hq
  · rw [queryList]
    congr 1
    have := insertionSort_map_snd (scoredRecords cat v).enum
      (pairwise_fst_le_enum (scoredRecords cat v))
    rw [List.enum_map_snd] at this
    exact this
  · intro hkn
    rw [queryList]
    exact List.take_of_length_le (by rw [hlen]; exact hkn)

/-- Closed witness for C2 on a concrete two-record catalog with `k` larger
than the catalog size. -/
theorem query_returns_top_k_witness :
    ((1 : ℤ) ≤ 3) ∧ ([(1 : ℝ), 0].length = (Catalog.mk 2
        [⟨"A", [1, 0]⟩, ⟨"B", [0, 1]⟩]).dim) ∧
      ((Catalog.mk 2 [⟨"A", [1, 0]⟩, ⟨"B", [0, 1]⟩]).records ≠ []) ∧
      (query (Catalog.mk 2 [⟨"A", [1, 0]⟩, ⟨"B", [0, 1]⟩]) [1, 0] 3 =
        .ok (queryList (Catalog.mk 2 [⟨"A", [1, 0]⟩, ⟨"B", [0, 1]⟩]) [1, 0] 3)) :=
  ⟨by decide, rfl, List.cons_ne_nil _ _,
    (query_returns_top_k (Catalog.mk 2 [⟨"A", [1, 0]⟩, ⟨"B", [0, 1]⟩]) [1, 0] 3
      (by decide) rfl (List.cons_ne_nil _ _)).1⟩

/-! ### Claim C6 -/

/-- C6: when all stored embeddings and the query vector are unit vectors (the
normalization invariant of the spec), every element of the ranked result
carries a similarity score in the interval `[-1, 1]`, and the result's length
is at most `K`; moreover every successful `query` returns exactly this ranked
list. -/
theorem queryList_scores_in_unit_interval (cat : Catalog) (v : List ℝ) (k : ℤ)
    (hcat : ∀ r ∈ cat.records, dotp r.emb r.emb = 1) (hv : dotp v v = 1) :
    (∀ p ∈ queryList cat v k, -1 ≤ p.2 ∧ p.2 ≤ 1) ∧
      (queryList cat v k).length ≤ k.toNat ∧
      (∀ l, query cat v k = .ok l → l = queryList cat v k) := by
  refine ⟨?_, ?_, ?_⟩
  · intro p hp
    have hmem : p ∈ scoredRecords cat v :=
      ((scoredRecords cat v).perm_insertionSort simRel).subset
        (List.take_subset _ _ hp)
    rcases List.mem_map.mp hmem with ⟨r, hr, hrp⟩
    have hsq : dotp v r.emb ^ 2 ≤ 1 := by
      have := dotp_sq_le v r.emb
      rw [hv, hcat r hr] at this
      simpa using this
    have habs : |dotp v r.emb| ≤ 1 := (sq_le_one_iff_abs_le_one _).mp hsq
    have hb := abs_le.mp habs
    rw [← hrp]
    exact hb
  · exact le_trans (List.length_take_le _ _) (le_refl _)
  · intro l hl
    unfold query at hl
    by_cases h1 : k ≤ 0
    · simp [h1] at hl
    · by_cases h2 : v.length ≠ cat.dim
      · simp [h1, h2] at hl
      · by_cases h3 : cat.records.isEmpty
        · simp [h1, h2, h3] at hl
        · simp [h1, h2, h3] at hl
          exact hl.symm

/-- Closed witness for C6 on a concrete catalog of two unit vectors and a
concrete unit query vector. -/
theorem queryList_scores_in_unit_interval_witness :
    (∀ r ∈ (Catalog.mk 2 [⟨"A", [1, 0]⟩, ⟨"B", [0, 1]⟩]).records,
        dotp r.emb r.emb = 1) ∧
      (dotp [(1 : ℝ), 0] [(1 : ℝ), 0] = 1) ∧
      (∀ p ∈ queryList (Catalog.mk 2 [⟨"A", [1, 0]⟩, ⟨"B", [0, 1]⟩]) [1, 0] 1,
        -1 ≤ p.2 ∧ p.2 ≤ 1) := by
  have hcat : ∀ r ∈ (Catalog.mk 2 [⟨"A", [1, 0]⟩, ⟨"B", [0, 1]⟩]).records,
      dotp r.emb r.emb = 1 := by
    intro r hr
    simp only [List.mem_cons, List.not_mem_nil, or_false] at hr
    rcases hr with hr | hr <;> rw [hr] <;> norm_num [dotp]
  have hv : dotp [(1 : ℝ), 0] [(1 : ℝ), 0] = 1 := by norm_num [dotp]
  exact ⟨hcat, hv,
    (queryList_scores_in_unit_interval (Catalog.mk 2 [⟨"A", [1, 0]⟩, ⟨"B", [0, 1]⟩])
      [1, 0] 1 hcat hv).1⟩

/-! ### Claim C7 -/

/-- C7 counterexample: with an empty catalog and `k = 0` the query fails with
`InvalidArgumentError`, not `EmptyCatalogError`, and with an empty catalog,
`k = 5` and a wrong-dimension vector it fails with `DimensionMismatchError`,
not `EmptyCatalogError` — so "EmptyCatalogError for any query vector and any
k" does not hold. -/
theorem query_empty_catalog_priority_counterexample :
    ((Catalog.mk 2 []).records = []) ∧
      query (Catalog.mk 2 []) [1, 0] 0 = .error .invalidArgument ∧
      query (Catalog.mk 2 []) [1, 0] 0 ≠ .error .emptyCatalog ∧
      query (Catalog.mk 2 []) [1] 5 = .error .dimensionMismatch ∧
      query (Catalog.mk 2 []) [1] 5 ≠ .error .emptyCatalog := by
  refine ⟨rfl, by simp [query], ?_, by simp [query], ?_⟩
  · simp [query]
  · simp [query]

/-- C7 (amended): `query` fails with `InvalidArgumentError` whenever `k ≤ 0`
(for any catalog and query vector), and fails with `EmptyCatalogError`
whenever the catalog has zero records, provided `k ≥ 1` and the query vector
has the configured dimension (argument validation precedes the catalog-state
check). -/
theorem query_validation_errors (cat : Catalog) (v : List ℝ) (k : ℤ) :
    (k ≤ 0 → query cat v k = .error .invalidArgument) ∧
      (1 ≤ k → v.length = cat.dim → cat.records = [] →
        query cat v k = .error .emptyCatalog) := by
  constructor
  · intro h
    simp [query, h]
  · intro hk hd hnil
    have hk' : ¬ k ≤ 0 := by omega
    simp [query, hk', hd, hnil]

/-- Closed witness for C7 (amended) at concrete inputs exercising both
conjuncts. -/
theorem query_validation_errors_witness :
    query (Catalog.mk 2 [⟨"A", [1, 0]⟩]) [1, 0] 0 = .error .invalidArgument ∧
      query (Catalog.mk 2 []) [1, 0] 7 = .error .emptyCatalog :=
  ⟨(query_validation_errors (Catalog.mk 2 [⟨"A", [1, 0]⟩]) [1, 0] 0).1 (by decide),
    (query_validation_errors (Catalog.mk 2 []) [1, 0] 7).2 (by decide) rfl rfl⟩

/-! ### Recommendation orchestrator (spec section 4.4) -/

/-- Modelled from the spec: a recommendation result, the ranked candidate
items plus an optional explanation text (presentation only). -/
structure RecResult where
  items : List (MovieRecord × ℝ)
  explanationText : Option String

/-- Modelled from the spec: `recommend(user_id, free_text, k)` (spec section
4.4): reject empty/whitespace-only text (`EmptyInputError`) and bad `k`
(`InvalidArgumentError`, grouped with input validation by the propagation
policy of spec section 7, hence checked before any state change); obtain the
embedding from the external encoder, failing with `EmbeddingFailure` on
encoder failure or a wrong-dimension vector without touching the taste state;
fuse the embedding into the user's taste state; query the catalog; optionally
annotate via the external explanation step.  The updated store is returned
alongside the outcome; validation and embedding failures return the store
unchanged. -/
noncomputable def recommend (embed : String → Option (List ℝ))
    (explain : String → List (MovieRecord × ℝ) → Option String)
    (alpha : ℝ) (cat : Catalog) (st : Store) (uid free_text : String) (k : ℤ) :
    Store × Except RecError RecResult :=
  if free_text.data.all Char.isWhitespace then (st, .error .emptyInput)
  else if k ≤ 0 then (st, .error .invalidArgument)
  else
    match embed free_text with
    | none => (st, .error .embeddingFailure)
    | some v =>
      if v.length ≠ cat.dim then (st, .error .embeddingFailure)
      else
        match query cat (fusedVector alpha (st.get uid) v) k with
        | .error e => ((Store.update alpha st uid v).1, .error e)
        | .ok items =>
          ((Store.update alpha st uid v).1, .ok ⟨items, explain free_text items⟩)

/-- Candidate list of an orchestrator outcome, when it succeeded. -/
def candidatesOf : Except RecError RecResult → Option (List (MovieRecord × ℝ))
  | .ok r => some r.items
  | .error _ => none

/-- Error of an orchestrator outcome, when it failed. -/
def errorOf : Except RecError RecResult → Option RecError
  | .ok _ => none
  | .error e => some e

lemma query_error_cases (cat : Catalog) (v : List ℝ) (k : ℤ) (e : RecError)
    (hk : ¬ k ≤ 0) (h : query cat v k = .error e) :
    e = .dimensionMismatch ∨ e = .emptyCatalog := by
  unfold query at h
  rw [if_neg hk] at h
  by_cases h2 : v.length ≠ cat.dim
  · rw [if_pos h2] at h
    injection h with h'
    exact Or.inl h'.symm
  · rw [if_neg h2] at h
    by_cases h3 : cat.records.isEmpty
    · rw [if_pos h3] at h
      injection h with h'
      exact Or.inr h'.symm
    · rw [if_neg h3] at h
      cases h

/-! ### Claim C4 -/

/-- C4: whenever `recommend` fails with `EmptyInputError`,
`InvalidArgumentError`, or `EmbeddingFailure`, the call leaves all state
unmodified: the returned store equals the store before the call (hence every
user's stored taste vector and turn count are unchanged). -/
theorem recommend_failure_preserves_state (embed : String → Option (List ℝ))
    (explain : String → List (MovieRecord × ℝ) → Option String)
    (alpha : ℝ) (cat : Catalog) (st : Store) (uid free_text : String) (k : ℤ)
    (e : RecError)
    (h : (recommend embed explain alpha cat st uid free_text k).2 = .error e)
    (he : e = .emptyInput ∨ e = .invalidArgument ∨ e = .embeddingFailure) :
    (recommend embed explain alpha cat st uid free_text k).1 = st := by
  unfold recommend at h ⊢
  by_cases h1 : free_text.data.all Char.isWhitespace = true
  · simp [h1]
  · by_cases h2 : k ≤ 0
    · simp [h1, h2]
    · simp only [if_neg h1, if_neg h2] at h ⊢
      cases hemb : embed free_text with
      | none => simp [hemb]
      | some v =>
        simp only [hemb] at h ⊢
        by_cases h3 : v.length ≠ cat.dim
        · simp [h3]
        · simp only [if_neg h3] at h ⊢
          cases hq : query cat (fusedVector alpha (st.get uid) v) k with
          | error e' =>
            rw [hq] at h
            simp only at h
            injection h with h'
            subst h'
            rcases query_error_cases _ _ _ _ h2 hq with h4 | h4 <;>
              rcases he with h5 | h5 | h5 <;> rw [h4] at h5 <;> cases h5
          | ok items =>
            rw [hq] at h
            simp only at h
            cases h

/-- Closed witness for C4: a failing embedder aborts `recommend` with
`EmbeddingFailure` and returns the store unchanged. -/
theorem recommend_failure_preserves_state_witness :
    ((recommend (fun _ => none) (fun _ _ => none) (1/2)
        (Catalog.mk 2 [⟨"A", [1, 0]⟩]) (fun _ => none : Store) "u" "sci-fi" 5).2 =
      .error .embeddingFailure) ∧
      ((recommend (fun _ => none) (fun _ _ => none) (1/2)
          (Catalog.mk 2 [⟨"A", [1, 0]⟩]) (fun _ => none : Store) "u" "sci-fi" 5).1 =
        (fun _ => none : Store)) :=
  ⟨rfl, recommend_failure_preserves_state (fun _ => none) (fun _ _ => none) (1/2)
    (Catalog.mk 2 [⟨"A", [1, 0]⟩]) (fun _ => none) "u" "sci-fi" 5
    .embeddingFailure rfl (Or.inr (Or.inr rfl))⟩

/-! ### Claim C5 -/

/-- C5: the outcome of `recommend` does not depend on the external explanation
step: for any two explanation functions the resulting store, the candidate
list and the error (if any) coincide — an explanation failure is never
propagated as a failure of the whole operation and never changes the taste
vector or the retrieval result — and every successful outcome carries exactly
the candidate list produced by the catalog query. -/
theorem recommend_explanation_best_effort (embed : String → Option (List ℝ))
    (f g : String → List (MovieRecord × ℝ) → Option String)
    (alpha : ℝ) (cat : Catalog) (st : Store) (uid free_text : String) (k : ℤ) :
    ((recommend embed f alpha cat st uid free_text k).1 =
        (recommend embed g alpha cat st uid free_text k).1) ∧
      (candidatesOf (recommend embed f alpha cat st uid free_text k).2 =
        candidatesOf (recommend embed g alpha cat st uid free_text k).2) ∧
      (errorOf (recommend embed f alpha cat st uid free_text k).2 =
        errorOf (recommend embed g alpha cat st uid free_text k).2) ∧
      (∀ r, (recommend embed f alpha cat st uid free_text k).2 = .ok r →
        ∃ v, embed free_text = some v ∧
          query cat (fusedVector alpha (st.get uid) v) k = .ok r.items) := by
  unfold recommend
  by_cases h1 : free_text.data.all Char.isWhitespace = true
  · simp [h1, candidatesOf, errorOf]
  · by_cases h2 : k ≤ 0
    · simp [h1, h2, candidatesOf, errorOf]
    · simp only [if_neg h1, if_neg h2]
      cases hemb : embed free_text with
      | none => simp [candidatesOf, errorOf]
      | some v =>
        by_cases h3 : v.length ≠ cat.dim
        · simp [h3, candidatesOf, errorOf]
        · simp only [if_neg h3]
          cases hq : query cat (fusedVector alpha (st.get uid) v) k with
          | error e => simp [candidatesOf, errorOf]
          | ok items =>
            refine ⟨rfl, rfl, rfl, ?_⟩
            intro r hr
            simp only at hr
            injection hr with hr'
            exact ⟨v, rfl, by rw [hq, ← hr']⟩

/-- Closed witness for C5 at concrete inputs: one succeeding and one failing
explanation function. -/
theorem recommend_explanation_best_effort_witness :
    ((recommend (fun _ => some [1, 0]) (fun _ _ => some "because") (1/2)
        (Catalog.mk 2 [⟨"A", [1, 0]⟩]) (fun _ => none : Store) "u" "sci-fi" 5).1 =
      (recommend (fun _ => some [1, 0]) (fun _ _ => none) (1/2)
        (Catalog.mk 2 [⟨"A", [1, 0]⟩]) (fun _ => none : Store) "u" "sci-fi" 5).1) ∧
      (candidatesOf (recommend (fun _ => some [1, 0]) (fun _ _ => some "because") (1/2)
          (Catalog.mk 2 [⟨"A", [1, 0]⟩]) (fun _ => none : Store) "u" "sci-fi" 5).2 =
        candidatesOf (recommend (fun _ => some [1, 0]) (fun _ _ => none) (1/2)
          (Catalog.mk 2 [⟨"A", [1, 0]⟩]) (fun _ => none : Store) "u" "sci-fi" 5).2) :=
  ⟨(recommend_explanation_best_effort (fun _ => some [1, 0])
      (fun _ _ => some "because") (fun _ _ => none) (1/2)
      (Catalog.mk 2 [⟨"A", [1, 0]⟩]) (fun _ => none) "u" "sci-fi" 5).1,
    (recommend_explanation_best_effort (fun _ => some [1, 0])
      (fun _ _ => some "because") (fun _ _ => none) (1/2)
      (Catalog.mk 2 [⟨"A", [1, 0]⟩]) (fun _ => none) "u" "sci-fi" 5).2.1⟩

end MovieRec

namespace Demo

/-! ### Demo front-end: taste-map profile similarity
(`src/Demo/movie-rec-demo/src/api/openai.ts`) -/

/-- Two-dimensional taste-map coordinates (the `{x, y}` object of the TS
source). -/
structure Coord where
  x : ℝ
  y : ℝ

/-- The `type` discriminator of `TasteProfile`. -/
inductive ProfileType where
  | user
  | friend
  | pub
  | critic

/-- `TasteProfile` from `src/api/openai.ts` (the `'public'` variant is
rendered `pub` here). -/
structure TasteProfile where
  id : String
  name : String
  ptype : ProfileType
  coordinates : Coord
  genreDistribution : List (String × ℝ)
  moviesCount : ℕ
  avgRating : ℝ
  topGenres : List String
  color : String

/-- `calculateSimilarity` from `src/api/openai.ts` lines 294-306: Euclidean
distance of the two profiles' 2-D coordinates, converted to a similarity
percentage and clamped into `[0, 100]` (`Math.round` rounds half toward
positive infinity, as `round` does). -/
noncomputable def calculateSimilarity (profile1 profile2 : TasteProfile) : ℤ :=
  let dx := profile1.coordinates.x - profile2.coordinates.x
  let dy := profile1.coordinates.y - profile2.coordinates.y
  let distance := Real.sqrt (dx * dx + dy * dy)
  let maxDistance : ℝ := 2.83
  let similarity := round ((1 - distance / maxDistance) * 100)
  max 0 (min 100 similarity)

/-! ### Claim C9 -/

/-- C9: for every pair of taste profiles, `calculateSimilarity` returns an
integer in the closed interval `[0, 100]`, computed by mapping the Euclidean
distance `d` between the two 2-D coordinates to `round((1 - d/2.83) * 100)`
and clamping into `[0, 100]` — a distance-based percentage, not a cosine
value in `[-1, 1]`. -/
theorem calculateSimilarity_clamped_percentage (p1 p2 : TasteProfile) :
    0 ≤ calculateSimilarity p1 p2 ∧ calculateSimilarity p1 p2 ≤ 100 ∧
      calculateSimilarity p1 p2 =
        max 0 (min 100 (round ((1 -
          Real.sqrt ((p1.coordinates.x - p2.coordinates.x) ^ 2 +
            (p1.coordinates.y - p2.coordinates.y) ^ 2) / 2.83) * 100))) := by
  refine ⟨le_max_left _ _, ?_, ?_⟩
  · exact max_le (by norm_num) (min_le_left _ _)
  · simp only [calculateSimilarity, pow_two]

/-! ### Demo front-end: resolving model-suggested titles to TMDB ids
(`src/unnamed/part_002`) -/

/-- `RawRecommendation` of the demo recommendation generator: one movie
suggestion from the language model, before id resolution. -/
structure RawRecommendation where
  title : String
  year : ℤ
  explanation : String
  matchScore : ℚ
  factors : List String
  deriving DecidableEq

/-- `GeneratedRecommendation`: a suggestion whose title has been resolved to
a TMDB movie id. -/
structure GeneratedRecommendation where
  movieId : ℕ
  explanation : String
  matchScore : ℚ
  factors : List String
  deriving DecidableEq

/-- `RawRecommendationSet`: one raw category from the language model. -/
structure RawRecommendationSet where
  title : String
  recommendations : List RawRecommendation
  deriving DecidableEq

/-- `RecommendationSet`: one resolved category. -/
structure RecommendationSet where
  title : String
  recommendations : List GeneratedRecommendation
  deriving DecidableEq

/-- `resolveMovieIds` from `src/unnamed/part_002` lines 203-237, with the
external TMDB title search `movieTitleToId` abstracted as the `resolve`
oracle.  A resolved id of `0` is discarded exactly like a failed lookup,
mirroring the JavaScript truthiness test `if (movieId)`; a category is kept
only when at least 2 of its suggestions resolved. -/
def resolveMovieIds (resolve : String → ℤ → Option ℕ)
    (rawSets : List RawRecommendationSet) : List RecommendationSet :=
  rawSets.filterMap fun rawSet =>
    let resolved := rawSet.recommendations.filterMap fun r =>
      match resolve r.title r.year with
      | some movieId =>
        if movieId = 0 then none
        else some ⟨movieId, r.explanation, r.matchScore, r.factors⟩
      | none => none
    if 2 ≤ resolved.length then some ⟨rawSet.title, resolved⟩ else none

/-! ### Claim C10 -/

/-- C10: every recommendation set returned by `resolveMovieIds` contains at
least 2 resolved recommendations — a raw category in which fewer than 2
titles resolved is silently dropped, so callers never observe a category
with 0 or 1 movies. -/
theorem resolveMovieIds_at_least_two (resolve : String → ℤ → Option ℕ)
    (rawSets : List RawRecommendationSet) (s : RecommendationSet)
    (hs : s ∈ resolveMovieIds resolve rawSets) :
    2 ≤ s.recommendations.length := by
  rcases List.mem_filterMap.mp hs with ⟨rawSet, _, heq⟩
  simp only at heq
  split at heq
  · injection heq with h'
    rw [← h']
    assumption
  · cases heq

/-- Closed witness for C10: a concrete raw category whose two suggestions
both resolve. -/
theorem resolveMovieIds_at_least_two_witness :
    ((⟨"Because you loved Inception...",
        [⟨1, "e1", 90, []⟩, ⟨1, "e2", 88, []⟩]⟩ : RecommendationSet) ∈
      resolveMovieIds (fun _ _ => some 1)
        [⟨"Because you loved Inception...",
          [⟨"Arrival", 2016, "e1", 90, []⟩, ⟨"Interstellar", 2014, "e2", 88, []⟩]⟩]) ∧
      2 ≤ (⟨"Because you loved Inception...",
        [⟨1, "e1", 90, []⟩, ⟨1, "e2", 88, []⟩]⟩ : RecommendationSet).recommendations.length :=
  ⟨by decide,
    resolveMovieIds_at_least_two (fun _ _ => some 1)
      [⟨"Because you loved Inception...",
        [⟨"Arrival", 2016, "e1", 90, []⟩, ⟨"Interstellar", 2014, "e2", 88, []⟩]⟩]
      ⟨"Because you loved Inception...", [⟨1, "e1", 90, []⟩, ⟨1, "e2", 88, []⟩]⟩
      (by decide)⟩

end Demo
